import Mathlib

/-!
Verification of the Scanstream market scanner core against its
natural-language specification.  The Python source (scanner.py,
scanner_api.py, continuous_scanner.py) is shallowly embedded over ℚ:
pure scoring functions become Lean functions, Python `round` becomes
half-to-even rounding on ℚ, Python `int()` becomes truncation toward
zero, and Python substring tests (`'x' in s`) become list-infix tests
on the character lists.
-/

namespace Scanstream

/-- Python `round` on a rational: round half to even (banker's rounding). -/
def pyRound (q : ℚ) : ℤ :=
  if q - (⌊q⌋ : ℚ) < 1/2 then ⌊q⌋
  else if 1/2 < q - (⌊q⌋ : ℚ) then ⌊q⌋ + 1
  else if ⌊q⌋ % 2 = 0 then ⌊q⌋ else ⌊q⌋ + 1

/-- Python `round(q, n)`: round to `n` decimal digits, half to even. -/
def pyRoundTo (n : ℕ) (q : ℚ) : ℚ :=
  (pyRound (q * 10 ^ n) : ℚ) / 10 ^ n

/-- Python `int()` on a rational: truncation toward zero. -/
def pyInt (q : ℚ) : ℤ :=
  if q < 0 then -⌊-q⌋ else ⌊q⌋

lemma pyRound_nonneg {q : ℚ} (h : 0 ≤ q) : 0 ≤ pyRound q := by
  unfold pyRound
  have hf : (0 : ℤ) ≤ ⌊q⌋ := Int.floor_nonneg.2 h
  split_ifs <;> omega

lemma pyRound_le {q : ℚ} {n : ℤ} (h : q ≤ (n : ℚ)) : pyRound q ≤ n := by
  unfold pyRound
  have hf : ⌊q⌋ ≤ n := by
    have := Int.floor_mono h
    simpa using this
  have hr : ⌊q⌋ = n → q - (⌊q⌋ : ℚ) ≤ 0 := by
    intro he
    rw [he]
    linarith
  split_ifs with h1 h2 h3
  · exact hf
  · rcases lt_or_eq_of_le hf with hlt | heq
    · omega
    · exfalso; have := hr heq; linarith
  · exact hf
  · rcases lt_or_eq_of_le hf with hlt | heq
    · omega
    · exfalso; have := hr heq; push_neg at h1; linarith

lemma pyRound_intCast (n : ℤ) : pyRound (n : ℚ) = n := by
  unfold pyRound
  have hf : ⌊(n : ℚ)⌋ = n := Int.floor_intCast n
  rw [hf]
  have h0 : (n : ℚ) - (n : ℚ) = 0 := by ring
  rw [h0]
  norm_num

lemma pyRoundTo_nonneg {q : ℚ} (n : ℕ) (h : 0 ≤ q) : 0 ≤ pyRoundTo n q := by
  unfold pyRoundTo
  have hp : (0 : ℚ) < 10 ^ n := by positivity
  apply div_nonneg _ (le_of_lt hp)
  exact_mod_cast pyRound_nonneg (by positivity)

lemma pyRoundTo_le {q : ℚ} {m : ℤ} (n : ℕ) (h : q ≤ (m : ℚ)) : pyRoundTo n q ≤ (m : ℚ) := by
  unfold pyRoundTo
  have hp : (0 : ℚ) < 10 ^ n := by positivity
  rw [div_le_iff₀ hp]
  have h1 : q * 10 ^ n ≤ ((m * 10 ^ n : ℤ) : ℚ) := by
    push_cast
    have := mul_le_mul_of_nonneg_right h (le_of_lt hp)
    linarith
  have h2 : pyRound (q * 10 ^ n) ≤ m * 10 ^ n := pyRound_le h1
  calc (pyRound (q * 10 ^ n) : ℚ) ≤ ((m * 10 ^ n : ℤ) : ℚ) := by exact_mod_cast h2
    _ = (m : ℚ) * 10 ^ n := by push_cast; ring

/-- Weights of `TechnicalIndicators.calculate_composite_score`; the default
dictionary of the source (scanner.py lines 704-713).  The weights sum to 1.25. -/
structure CompositeWeights where
  momentum_short : ℚ
  momentum_long : ℚ
  rsi : ℚ
  macd : ℚ
  trend_score : ℚ
  volume_ratio : ℚ
  ichimoku : ℚ
  fib_confluence : ℚ

/-- Default weights dictionary of `calculate_composite_score`. -/
def defaultCompositeWeights : CompositeWeights :=
  ⟨2/10, 15/100, 2/10, 15/100, 2/10, 1/10, 1/10, 15/100⟩

/-- Embedding of `TechnicalIndicators.calculate_composite_score`
(scanner.py lines 691-732): eight components each clamped to [0,1] by
`min(max(·,0),1)`, weighted sum, times 100, rounded to two digits. -/
def calculate_composite_score (momentum_short momentum_long rsi macd trend_score
    volume_ratio : ℚ) (ichimoku_bullish : Bool) (fib_confluence : ℚ)
    (w : CompositeWeights) : ℚ :=
  let mom_short_score := min (max (|momentum_short| * 1000) 0) 1
  let mom_long_score := min (max (|momentum_long| * 500) 0) 1
  let rsi_score := if 50 ≤ rsi then min (max ((rsi - 50) / 30) 0) 1
    else min (max ((50 - rsi) / 30) 0) 1
  let macd_score := min (max (|macd| * 50) 0) 1
  let trend_score_norm := min (max (trend_score / 10) 0) 1
  let vol_score := min (max ((volume_ratio - 1) / (3/2)) 0) 1
  let ichimoku_score : ℚ := if ichimoku_bullish then 1 else 0
  let fib_score := min (max (fib_confluence / 100) 0) 1
  let score :=
    mom_short_score * w.momentum_short +
    mom_long_score * w.momentum_long +
    rsi_score * w.rsi +
    macd_score * w.macd +
    trend_score_norm * w.trend_score +
    vol_score * w.volume_ratio +
    ichimoku_score * w.ichimoku +
    fib_score * w.fib_confluence
  pyRoundTo 2 (score * 100)

lemma clamp01_nonneg (x : ℚ) : 0 ≤ min (max x 0) 1 := by
  simp [le_min_iff, le_max_iff]

lemma clamp01_le_one (x : ℚ) : min (max x 0) 1 ≤ 1 := min_le_right _ _

lemma pyRoundTo_intCast (n : ℕ) (m : ℤ) : pyRoundTo n (m : ℚ) = (m : ℚ) := by
  unfold pyRoundTo
  have hp : (0 : ℚ) < 10 ^ n := by positivity
  have h1 : (m : ℚ) * 10 ^ n = ((m * 10 ^ n : ℤ) : ℚ) := by push_cast; ring
  rw [h1, pyRound_intCast]
  field_simp

lemma pyRound_eq_floor {q : ℚ} (h : q - (⌊q⌋ : ℚ) < 1/2) : pyRound q = ⌊q⌋ := by
  unfold pyRound
  rw [if_pos h]

lemma pyRound_eq_floor_add_one {q : ℚ} (h : 1/2 < q - (⌊q⌋ : ℚ)) :
    pyRound q = ⌊q⌋ + 1 := by
  unfold pyRound
  rw [if_neg (by linarith), if_pos h]

end Scanstream

namespace Scanstream

/-- C2 counterexample input: every component clamps to 1 and the default
weights sum to 1.25, so the score is 125. -/
theorem composite_score_not_rescaled_counterexample :
    calculate_composite_score (1/100) (1/100) 80 1 10 (5/2) true 100
      defaultCompositeWeights = 125 ∧
    ¬ calculate_composite_score (1/100) (1/100) 80 1 10 (5/2) true 100
      defaultCompositeWeights ≤ 100 := by
  have h : calculate_composite_score (1/100) (1/100) 80 1 10 (5/2) true 100
      defaultCompositeWeights = 125 := by
    simp only [calculate_composite_score, defaultCompositeWeights]
    norm_num [min_def, max_def, abs_of_nonneg]
    have h125 : ((125 : ℚ)) = ((125 : ℤ) : ℚ) := by norm_num
    rw [h125, pyRoundTo_intCast]
  refine ⟨h, ?_⟩
  rw [h]
  norm_num

/-- C2 amended: with the default weights every composite score lies in
[0, 125]; the weighted sum of the clamped components is not rescaled,
so it can exceed 100 (the weights sum to 1.25). -/
theorem composite_score_bounds (ms ml rsi macd ts vr fc : ℚ) (ib : Bool) :
    0 ≤ calculate_composite_score ms ml rsi macd ts vr ib fc defaultCompositeWeights ∧
    calculate_composite_score ms ml rsi macd ts vr ib fc defaultCompositeWeights ≤ 125 := by
  simp only [calculate_composite_score, defaultCompositeWeights]
  have h1 := clamp01_nonneg (|ms| * 1000)
  have h2 := clamp01_le_one (|ms| * 1000)
  have h3 := clamp01_nonneg (|ml| * 500)
  have h4 := clamp01_le_one (|ml| * 500)
  have h5 : 0 ≤ (if 50 ≤ rsi then min (max ((rsi - 50) / 30) 0) 1
      else min (max ((50 - rsi) / 30) 0) 1) := by
    split_ifs <;> exact clamp01_nonneg _
  have h6 : (if 50 ≤ rsi then min (max ((rsi - 50) / 30) 0) 1
      else min (max ((50 - rsi) / 30) 0) 1) ≤ 1 := by
    split_ifs <;> exact clamp01_le_one _
  have h7 := clamp01_nonneg (|macd| * 50)
  have h8 := clamp01_le_one (|macd| * 50)
  have h9 := clamp01_nonneg (ts / 10)
  have h10 := clamp01_le_one (ts / 10)
  have h11 := clamp01_nonneg ((vr - 1) / (3/2))
  have h12 := clamp01_le_one ((vr - 1) / (3/2))
  have h13 : 0 ≤ (if ib then (1 : ℚ) else 0) := by split_ifs <;> norm_num
  have h14 : (if ib then (1 : ℚ) else 0) ≤ 1 := by split_ifs <;> norm_num
  have h15 := clamp01_nonneg (fc / 100)
  have h16 := clamp01_le_one (fc / 100)
  constructor
  · apply pyRoundTo_nonneg
    nlinarith
  · have h125 : ((125 : ℚ)) = ((125 : ℤ) : ℚ) := by norm_num
    rw [h125]
    apply pyRoundTo_le
    push_cast
    nlinarith

/-- Embedding of `SignalClassifier.calculate_signal_strength`
(scanner.py lines 1403-1426): base 50, momentum term added only when
both momenta are strictly positive, RSI and MACD and volume adjustments,
result clamped by `max(0, min(100, score))`. -/
def calculate_signal_strength (momentum_short momentum_long rsi macd
    volume_ratio : ℚ) : ℚ :=
  let momentum_score := min (|momentum_short| * 1000) 15 + min (|momentum_long| * 500) 15
  let s1 : ℚ := if 0 < momentum_short ∧ 0 < momentum_long
    then 50 + momentum_score else 50 - momentum_score
  let s2 := if 40 < rsi ∧ rsi < 60 then s1 + 5
    else if 70 < rsi ∨ rsi < 30 then s1 - 10 else s1
  let s3 := if 0 < macd then s2 + min (|macd| * 50) 10 else s2 - min (|macd| * 50) 10
  let s4 := if 6/5 < volume_ratio then s3 + 5
    else if volume_ratio < 4/5 then s3 - 3 else s3
  max 0 (min 100 s4)

/-- Rendering of claim C5's own formula, in which the momentum term is
taken with the sign of the product `momentum_short * momentum_long`
(added when the product is positive, subtracted otherwise).  Written
from the claim text, for comparison with `calculate_signal_strength`. -/
def claimedSignalStrength (momentum_short momentum_long rsi macd
    volume_ratio : ℚ) : ℚ :=
  let momentum_score := min (|momentum_short| * 1000) 15 + min (|momentum_long| * 500) 15
  let s1 : ℚ := if 0 < momentum_short * momentum_long
    then 50 + momentum_score else 50 - momentum_score
  let s2 := if 40 < rsi ∧ rsi < 60 then s1 + 5
    else if 70 < rsi ∨ rsi < 30 then s1 - 10 else s1
  let s3 := if 0 < macd then s2 + min (|macd| * 50) 10 else s2 - min (|macd| * 50) 10
  let s4 := if 6/5 < volume_ratio then s3 + 5
    else if volume_ratio < 4/5 then s3 - 3 else s3
  max 0 (min 100 s4)

/-- C5 counterexample: with both momenta negative the product is positive,
so the claim's formula adds the momentum term (70), but the code adds it
only when both momenta are positive and here subtracts it (40). -/
theorem signal_strength_sign_counterexample :
    calculate_signal_strength (-1/100) (-1/100) 50 0 1 = 40 ∧
    claimedSignalStrength (-1/100) (-1/100) 50 0 1 = 70 ∧
    calculate_signal_strength (-1/100) (-1/100) 50 0 1 ≠
      claimedSignalStrength (-1/100) (-1/100) 50 0 1 := by
  have habs : |(-1/100 : ℚ)| = 1/100 := by
    rw [abs_of_neg] <;> norm_num
  have h1 : calculate_signal_strength (-1/100) (-1/100) 50 0 1 = 40 := by
    simp only [calculate_signal_strength, habs]
    norm_num [min_def, max_def]
  have h2 : claimedSignalStrength (-1/100) (-1/100) 50 0 1 = 70 := by
    simp only [claimedSignalStrength, habs]
    norm_num [min_def, max_def]
  exact ⟨h1, h2, by rw [h1, h2]; norm_num⟩

/-- C5 amended: the signal strength equals the clamp to [0,100] of
50 plus the momentum term signed by whether BOTH momenta are strictly
positive (not by the sign of their product), plus the RSI, MACD and
volume-ratio adjustments exactly as the claim states them. -/
theorem signal_strength_formula (ms ml rsi macd vr : ℚ) :
    calculate_signal_strength ms ml rsi macd vr =
      max 0 (min 100
        (50 + (if 0 < ms ∧ 0 < ml then 1 else -1) *
            (min (|ms| * 1000) 15 + min (|ml| * 500) 15)
          + (if 40 < rsi ∧ rsi < 60 then 5
              else if 70 < rsi ∨ rsi < 30 then -10 else 0)
          + (if 0 < macd then 1 else -1) * min (|macd| * 50) 10
          + (if 6/5 < vr then 5 else if vr < 4/5 then -3 else 0))) := by
  simp only [calculate_signal_strength]
  split_ifs <;> ring_nf

/-- Embedding of `MomentumScanner._get_bollinger_position`
(scanner.py lines 1995-2003): 0.5 when the bands coincide, otherwise the
raw ratio `(price - lower) / (upper - lower)` with no clamping. -/
def get_bollinger_position (price bb_upper bb_lower : ℚ) : ℚ :=
  if bb_upper = bb_lower then 1/2
  else (price - bb_lower) / (bb_upper - bb_lower)

/-- C6 counterexample: with the price above the upper band the reported
position is 1.5, outside [0,1], so the value is not clamped. -/
theorem bb_position_not_clamped_counterexample :
    get_bollinger_position 110 105 95 = 3/2 ∧
    ¬ get_bollinger_position 110 105 95 ≤ 1 := by
  constructor
  · simp only [get_bollinger_position]
    norm_num
  · simp only [get_bollinger_position]
    norm_num

/-- C6 amended: when the bands differ the reported position is the raw
unclamped ratio, which lies in [0,1] exactly when the price lies between
the bands; when the bands coincide the position is 0.5. -/
theorem bb_position_formula (price u l : ℚ) :
    (u = l → get_bollinger_position price u l = 1/2) ∧
    (u ≠ l → get_bollinger_position price u l = (price - l) / (u - l)) ∧
    (l < u → (0 ≤ get_bollinger_position price u l ∧
      get_bollinger_position price u l ≤ 1 ↔ l ≤ price ∧ price ≤ u)) := by
  refine ⟨fun h => by simp [get_bollinger_position, h],
    fun h => by simp [get_bollinger_position, h], fun hlt => ?_⟩
  have hne : u ≠ l := ne_of_gt hlt
  have hpos : 0 < u - l := by linarith
  simp only [get_bollinger_position, if_neg hne]
  constructor
  · rintro ⟨h0, h1⟩
    constructor
    · have := (div_nonneg_iff.mp h0)
      rcases this with ⟨ha, _⟩ | ⟨_, hb⟩
      · linarith
      · linarith
    · have := (div_le_one hpos).mp h1
      linarith
  · rintro ⟨h0, h1⟩
    constructor
    · apply div_nonneg (by linarith) (le_of_lt hpos)
    · rw [div_le_one hpos]
      linarith

/-- C6 witness: the amended characterization applied at price 99 between
bands 95 and 105. -/
theorem bb_position_formula_witness :
    ((105 : ℚ) ≠ 95) ∧
    get_bollinger_position 99 105 95 = (99 - 95) / (105 - 95) ∧
    ((95 : ℚ) < 105) ∧
    (0 ≤ get_bollinger_position 99 105 95 ∧ get_bollinger_position 99 105 95 ≤ 1 ↔
      (95 : ℚ) ≤ 99 ∧ (99 : ℚ) ≤ 105) := by
  have h := bb_position_formula 99 105 95
  exact ⟨by norm_num, h.2.1 (by norm_num), by norm_num, h.2.2 (by norm_num)⟩

/-- A result row of `MomentumScanner.scan_market`: the four per-symbol
scores and the derived combined score (scanner.py lines 1870-1907 and
1971-1980). -/
structure ScanRow where
  opportunity_score : ℚ
  composite_score : ℚ
  volume_composite_score : ℚ
  signal_strength : ℚ
  combined_score : ℚ
deriving DecidableEq

/-- Column assignment `df_results['combined_score'] = ...`
(scanner.py lines 1973-1978). -/
def setCombined (r : ScanRow) : ScanRow :=
  { r with combined_score :=
      r.opportunity_score * (50/100) +
      r.composite_score * (25/100) +
      r.volume_composite_score * (15/100) +
      r.signal_strength * (10/100) }

/-- Descending order on `combined_score`: the sort key of
`df_results.sort_values('combined_score', ascending=False)`. -/
def combinedDesc (a b : ScanRow) : Prop := b.combined_score ≤ a.combined_score

instance : DecidableRel combinedDesc := fun a b =>
  inferInstanceAs (Decidable (b.combined_score ≤ a.combined_score))

instance : IsTotal ScanRow combinedDesc :=
  ⟨fun a b => le_total b.combined_score a.combined_score⟩

instance : IsTrans ScanRow combinedDesc :=
  ⟨fun _ _ _ h1 h2 => le_trans h2 h1⟩

/-- Embedding of the ranking tail of `MomentumScanner.scan_market`
(scanner.py lines 1971-1980): compute `combined_score` on every row, sort
by it descending, truncate to `top_n`. -/
def scan_market_rank (rows : List ScanRow) (top_n : ℕ) : List ScanRow :=
  (List.insertionSort combinedDesc (rows.map setCombined)).take top_n

/-- C1: every emitted row satisfies the combined-score formula, the result
is sorted by combined score descending, and it has at most `top_n` rows. -/
theorem scan_market_ranked (rows : List ScanRow) (top_n : ℕ) :
    (∀ r ∈ scan_market_rank rows top_n,
      r.combined_score =
        r.opportunity_score * (50/100) + r.composite_score * (25/100) +
        r.volume_composite_score * (15/100) + r.signal_strength * (10/100)) ∧
    List.Sorted combinedDesc (scan_market_rank rows top_n) ∧
    (scan_market_rank rows top_n).length ≤ top_n := by
  refine ⟨?_, ?_, ?_⟩
  · intro r hr
    have h1 : r ∈ List.insertionSort combinedDesc (rows.map setCombined) :=
      List.mem_of_mem_take hr
    have h2 : r ∈ rows.map setCombined :=
      (List.perm_insertionSort combinedDesc (rows.map setCombined)).mem_iff.mp h1
    rcases List.mem_map.mp h2 with ⟨x, _, hx⟩
    subst hx
    rfl
  · exact (List.sorted_insertionSort combinedDesc (rows.map setCombined)).sublist
      (List.take_sublist _ _)
  · exact List.length_take_le top_n _

/-- C1 witness: a concrete two-row scan with `top_n = 2`, instantiating
the membership hypothesis at one emitted row. -/
theorem scan_market_ranked_witness :
    setCombined ⟨10, 20, 30, 40, 0⟩ ∈
      scan_market_rank [⟨10, 20, 30, 40, 0⟩, ⟨80, 60, 40, 20, 0⟩] 2 ∧
    (setCombined ⟨10, 20, 30, 40, 0⟩).combined_score =
      (setCombined ⟨10, 20, 30, 40, 0⟩).opportunity_score * (50/100) +
      (setCombined ⟨10, 20, 30, 40, 0⟩).composite_score * (25/100) +
      (setCombined ⟨10, 20, 30, 40, 0⟩).volume_composite_score * (15/100) +
      (setCombined ⟨10, 20, 30, 40, 0⟩).signal_strength * (10/100) := by
  have hmem : setCombined ⟨10, 20, 30, 40, 0⟩ ∈
      scan_market_rank [⟨10, 20, 30, 40, 0⟩, ⟨80, 60, 40, 20, 0⟩] 2 := by
    simp only [scan_market_rank, setCombined, List.map, List.insertionSort,
      List.orderedInsert, combinedDesc]
    norm_num [List.take]
  exact ⟨hmem,
    (scan_market_ranked [⟨10, 20, 30, 40, 0⟩, ⟨80, 60, 40, 20, 0⟩] 2).1 _ hmem⟩

/-- Python substring test `pat in s`, as an infix test on character lists. -/
def strContains (s pat : String) : Bool :=
  decide (pat.toList <:+: s.toList)

/-- One buffered per-timeframe signal, as consumed by
`ContinuousMultiTimeframeScanner.get_multi_timeframe_confluence`. -/
structure TFSignal where
  signal_type : String
  combined_score : ℚ

/-- The confluence record returned by `get_multi_timeframe_confluence`
(continuous_scanner.py lines 891-901). -/
structure ConfluenceResult where
  confluence : Bool
  timeframes_analyzed : ℕ
  average_score : ℚ
  bullish_timeframes : ℕ
  bearish_timeframes : ℕ
  dominant_bias : String
  recommendation : String

/-- Embedding of the confluence analysis of
`ContinuousMultiTimeframeScanner.get_multi_timeframe_confluence`
(continuous_scanner.py lines 875-901), on a nonempty list of latest
per-timeframe signals (the source returns a no-signals record when the
list is empty, before this analysis runs). -/
def get_multi_timeframe_confluence (s0 : TFSignal) (rest : List TFSignal)
    (min_score : ℚ) : ConfluenceResult :=
  let signals := s0 :: rest
  let scores := signals.map TFSignal.combined_score
  let buy_signals := signals.countP (fun s => strContains s.signal_type "BUY")
  let sell_signals := signals.countP (fun s => strContains s.signal_type "SELL")
  let min_of_scores := rest.foldl (fun a s => min a s.combined_score) s0.combined_score
  let mean := scores.sum / scores.length
  let has_confluence : Bool :=
    (decide (2 ≤ buy_signals) || decide (2 ≤ sell_signals)) &&
      decide (min_score ≤ min_of_scores)
  { confluence := has_confluence
    timeframes_analyzed := signals.length
    average_score := mean
    bullish_timeframes := buy_signals
    bearish_timeframes := sell_signals
    dominant_bias := if sell_signals < buy_signals then "bullish"
      else if buy_signals < sell_signals then "bearish" else "neutral"
    recommendation := if has_confluence && decide (75 < mean) then "STRONG"
      else if has_confluence then "MODERATE" else "WEAK" }

/-- The seeded buffers of claim C3: latest signals 5m BUY 70, 1h BUY 72,
4h HOLD 40, 1d BUY 68. -/
def confluenceScenarioHead : TFSignal := ⟨"BUY", 70⟩

/-- Remaining three seeded per-timeframe signals of the C3 scenario. -/
def confluenceScenarioRest : List TFSignal := [⟨"BUY", 72⟩, ⟨"HOLD", 40⟩, ⟨"BUY", 68⟩]

/-- C3 counterexample: in the seeded scenario the minimum combined score is
40 < 60, so the code reports `confluence = false` and recommendation
"WEAK", not `confluence = true` with "MODERATE" as the claim states. -/
theorem confluence_scenario_counterexample :
    (get_multi_timeframe_confluence confluenceScenarioHead confluenceScenarioRest
      60).confluence = false ∧
    (get_multi_timeframe_confluence confluenceScenarioHead confluenceScenarioRest
      60).recommendation = "WEAK" := by
  have hb : strContains "BUY" "BUY" = true := by decide
  have hh : strContains "HOLD" "BUY" = false := by decide
  have hsb : strContains "BUY" "SELL" = false := by decide
  have hsh : strContains "HOLD" "SELL" = false := by decide
  simp only [get_multi_timeframe_confluence, confluenceScenarioHead,
    confluenceScenarioRest, List.countP, List.countP.go, hb, hh, hsb, hsh,
    List.foldl, List.map, List.sum, List.length]
  norm_num [min_def]

/-- C3 amended: the seeded scenario yields `confluence = false` (the 4h
HOLD score 40 is below the 60 threshold), 3 bullish and 0 bearish
timeframes, mean score 62.5, and recommendation "WEAK". -/
theorem confluence_scenario_result :
    (get_multi_timeframe_confluence confluenceScenarioHead confluenceScenarioRest
      60).confluence = false ∧
    (get_multi_timeframe_confluence confluenceScenarioHead confluenceScenarioRest
      60).bullish_timeframes = 3 ∧
    (get_multi_timeframe_confluence confluenceScenarioHead confluenceScenarioRest
      60).bearish_timeframes = 0 ∧
    (get_multi_timeframe_confluence confluenceScenarioHead confluenceScenarioRest
      60).average_score = 125/2 ∧
    (get_multi_timeframe_confluence confluenceScenarioHead confluenceScenarioRest
      60).timeframes_analyzed = 4 ∧
    (get_multi_timeframe_confluence confluenceScenarioHead confluenceScenarioRest
      60).recommendation = "WEAK" := by
  have hb : strContains "BUY" "BUY" = true := by decide
  have hh : strContains "HOLD" "BUY" = false := by decide
  have hsb : strContains "BUY" "SELL" = false := by decide
  have hsh : strContains "HOLD" "SELL" = false := by decide
  simp only [get_multi_timeframe_confluence, confluenceScenarioHead,
    confluenceScenarioRest, List.countP, List.countP.go, hb, hh, hsb, hsh,
    List.foldl, List.map, List.sum, List.length]
  norm_num [min_def]

/-- Embedding of `TradingConfig` (scanner.py lines 75-80), restricted to
the fetch/circuit-breaker fields. -/
structure TradingConfig where
  retry_attempts : ℕ
  rate_limit_delay : ℚ
  max_concurrent_requests : ℕ
  circuit_breaker_threshold : ℕ
  circuit_breaker_pause : ℕ

/-- Default `TradingConfig` values of the source dataclass. -/
def defaultTradingConfig : TradingConfig := ⟨3, 1/100, 50, 10, 60⟩

/-- Rate-limit detection of `MarketDataFetcher.fetch_ohlcv`
(scanner.py lines 1188-1189): lowercase the message and look for the
substrings "rate limit", "throttle" or "429". -/
def is_rate_limit_error (msg : String) : Bool :=
  let m := msg.toList.map Char.toLower
  decide ("rate limit".toList <:+: m) || decide ("throttle".toList <:+: m) ||
    decide ("429".toList <:+: m)

/-- Outcome of one OHLCV fetch attempt. -/
inductive FetchOutcome
  | success
  | error (msg : String)

/-- Effect of one fetch attempt on the consecutive rate-limit-error
counter: the new counter value and whether the circuit-breaker pause of
`circuit_breaker_pause` seconds was slept. -/
structure BreakerEffect where
  counter : ℕ
  paused : Bool
deriving DecidableEq

/-- Embedding of the counter discipline of `MarketDataFetcher.fetch_ohlcv`
(scanner.py lines 1183-1194): success resets the counter; a rate-limit
error increments it and, when it reaches the threshold, pauses and resets
it; any other error leaves it unchanged. -/
def breaker_step (cfg : TradingConfig) (counter : ℕ) : FetchOutcome → BreakerEffect
  | FetchOutcome.success => ⟨0, false⟩
  | FetchOutcome.error msg =>
    if is_rate_limit_error msg then
      if cfg.circuit_breaker_threshold ≤ counter + 1 then ⟨0, true⟩
      else ⟨counter + 1, false⟩
    else ⟨counter, false⟩

/-- Iterate `breaker_step` over a sequence of fetch outcomes, returning
the final counter and the number of circuit-breaker pauses slept. -/
def breaker_run (cfg : TradingConfig) : ℕ → List FetchOutcome → ℕ × ℕ
  | c, [] => (c, 0)
  | c, e :: es =>
    let eff := breaker_step cfg c e
    let r := breaker_run cfg eff.counter es
    (r.1, (if eff.paused then 1 else 0) + r.2)

lemma breaker_step_rate_limit (cfg : TradingConfig) (c : ℕ) (msg : String)
    (h : is_rate_limit_error msg = true) :
    breaker_step cfg c (FetchOutcome.error msg) =
      if cfg.circuit_breaker_threshold ≤ c + 1 then ⟨0, true⟩
      else ⟨c + 1, false⟩ := by
  simp [breaker_step, h]

lemma breaker_run_append (cfg : TradingConfig) (c : ℕ) (l1 l2 : List FetchOutcome) :
    breaker_run cfg c (l1 ++ l2) =
      ((breaker_run cfg (breaker_run cfg c l1).1 l2).1,
       (breaker_run cfg c l1).2 + (breaker_run cfg (breaker_run cfg c l1).1 l2).2) := by
  induction l1 generalizing c with
  | nil => simp [breaker_run]
  | cons e es ih =>
    simp only [List.cons_append, breaker_run, List.append_eq]
    rw [ih]
    simp [Nat.add_assoc]

lemma breaker_run_replicate_rate_limit (cfg : TradingConfig) (msg : String)
    (h : is_rate_limit_error msg = true) :
    ∀ n c, c + n < cfg.circuit_breaker_threshold →
      breaker_run cfg c (List.replicate n (FetchOutcome.error msg)) = (c + n, 0) := by
  intro n
  induction n with
  | zero => intro c _; simp [breaker_run]
  | succ k ih =>
    intro c hlt
    rw [List.replicate_succ]
    simp only [breaker_run, breaker_step_rate_limit cfg c msg h]
    rw [if_neg (by omega)]
    have := ih (c + 1) (by omega)
    simp only [this]
    simp [Prod.ext_iff]
    omega

/-- C4 counterexample: after five consecutive rate-limit errors, a
non-rate-limit error leaves the counter at 5; the claim says it resets
the counter to 0. -/
theorem breaker_other_error_counterexample :
    breaker_step defaultTradingConfig 5
      (FetchOutcome.error "connection reset by peer") = ⟨5, false⟩ ∧
    (breaker_step defaultTradingConfig 5
      (FetchOutcome.error "connection reset by peer")).counter ≠ 0 := by
  have h : is_rate_limit_error "connection reset by peer" = false := by decide
  constructor
  · simp [breaker_step, h]
  · simp [breaker_step, h]

/-- C4 amended: rate-limit errors increment the per-adapter counter; at
`circuit_breaker_threshold` (default 10) the adapter pauses for
`circuit_breaker_pause` (default 60 s) and the counter resets to 0;
non-rate-limit errors leave the counter UNCHANGED; a successful fetch
resets it to 0. -/
theorem breaker_discipline (cfg : TradingConfig) (c n : ℕ) (msg other : String)
    (hrl : is_rate_limit_error msg = true)
    (hother : is_rate_limit_error other = false)
    (hn : n < defaultTradingConfig.circuit_breaker_threshold) :
    breaker_step cfg c (FetchOutcome.error msg) =
      (if cfg.circuit_breaker_threshold ≤ c + 1 then ⟨0, true⟩
        else ⟨c + 1, false⟩) ∧
    breaker_step cfg c (FetchOutcome.error other) = ⟨c, false⟩ ∧
    breaker_step cfg c FetchOutcome.success = ⟨0, false⟩ ∧
    breaker_run defaultTradingConfig 0
      (List.replicate n (FetchOutcome.error msg)) = (n, 0) ∧
    breaker_run defaultTradingConfig 0
      (List.replicate defaultTradingConfig.circuit_breaker_threshold
        (FetchOutcome.error msg)) = (0, 1) ∧
    defaultTradingConfig.circuit_breaker_threshold = 10 ∧
    defaultTradingConfig.circuit_breaker_pause = 60 := by
  refine ⟨breaker_step_rate_limit cfg c msg hrl, by simp [breaker_step, hother],
    rfl, ?_, ?_, rfl, rfl⟩
  · have := breaker_run_replicate_rate_limit defaultTradingConfig msg hrl n 0 (by omega)
    simpa using this
  · have h9 : breaker_run defaultTradingConfig 0
        (List.replicate 9 (FetchOutcome.error msg)) = (9, 0) := by
      have := breaker_run_replicate_rate_limit defaultTradingConfig msg hrl 9 0 (by decide)
      simpa using this
    show breaker_run defaultTradingConfig 0
      (List.replicate 10 (FetchOutcome.error msg)) = (0, 1)
    have hsplit : (10 : ℕ) = 9 + 1 := by norm_num
    rw [hsplit, List.replicate_add, breaker_run_append, h9]
    simp only [List.replicate_one, breaker_run,
      breaker_step_rate_limit _ _ _ hrl]
    norm_num [defaultTradingConfig]

/-- C4 witness: the discipline applied to the default configuration with
concrete rate-limit and non-rate-limit error messages. -/
theorem breaker_discipline_witness :
    is_rate_limit_error "rate limit" = true ∧
    is_rate_limit_error "connection timeout" = false ∧
    9 < defaultTradingConfig.circuit_breaker_threshold ∧
    breaker_run defaultTradingConfig 0
      (List.replicate 9 (FetchOutcome.error "rate limit")) = (9, 0) ∧
    breaker_run defaultTradingConfig 0
      (List.replicate defaultTradingConfig.circuit_breaker_threshold
        (FetchOutcome.error "rate limit")) = (0, 1) := by
  have h1 : is_rate_limit_error "rate limit" = true := by decide
  have h2 : is_rate_limit_error "connection timeout" = false := by decide
  have h3 : 9 < defaultTradingConfig.circuit_breaker_threshold := by decide
  have h := breaker_discipline defaultTradingConfig 5 9 "rate limit"
    "connection timeout" h1 h2 h3
  exact ⟨h1, h2, h3, h.2.2.2.1, h.2.2.2.2.1⟩

/-- The warnings `TechnicalIndicators.calculate_position_size` can emit
(scanner.py lines 940-951), identified by kind. -/
inductive PositionWarning
  | insufficientBalance
  | highAccountUsage
  | highLeverage
  | highRiskPct
  | liquidationBeyondStop
deriving DecidableEq

/-- Result record of `calculate_position_size` (scanner.py lines 953-969);
rounded exactly as the source rounds each field. -/
structure PositionSizeResult where
  position_value : ℚ
  units : ℚ
  margin_required : ℚ
  risk_amount_usd : ℚ
  total_fees : ℚ
  stop_distance_pct : ℚ
  leverage : ℚ
  liquidation_price : Option ℚ
  warnings : List PositionWarning
  safe_to_trade : Bool

/-- Embedding of `TechnicalIndicators.calculate_position_size`
(scanner.py lines 877-969). -/
def calculate_position_size (account_balance risk_per_trade_pct entry_price
    stop_loss leverage fee_rate : ℚ) : PositionSizeResult :=
  let risk_amount_usd := account_balance * (risk_per_trade_pct / 100)
  let stop_distance_raw := |(entry_price - stop_loss) / entry_price|
  let base_position_size := risk_amount_usd / stop_distance_raw
  let position_value := base_position_size * leverage
  let units := position_value / entry_price
  let total_fees := position_value * fee_rate + position_value * fee_rate
  let margin_required := position_value / leverage
  let liquidation_price :=
    if 1 < leverage then
      (if stop_loss < entry_price
        then entry_price - margin_required * (9/10) / units
        else entry_price + margin_required * (9/10) / units)
    else 0
  let warnings :=
    (if account_balance < margin_required
      then [PositionWarning.insufficientBalance] else []) ++
    (if account_balance * (1/2) < margin_required
      then [PositionWarning.highAccountUsage] else []) ++
    (if 3 < leverage then [PositionWarning.highLeverage] else []) ++
    (if 3 < risk_per_trade_pct then [PositionWarning.highRiskPct] else []) ++
    (if liquidation_price ≠ 0 ∧
        ((stop_loss < entry_price ∧ stop_loss < liquidation_price) ∨
         (entry_price < stop_loss ∧ liquidation_price < stop_loss))
      then [PositionWarning.liquidationBeyondStop] else [])
  { position_value := pyRoundTo 2 position_value
    units := pyRoundTo 8 units
    margin_required := pyRoundTo 2 margin_required
    risk_amount_usd := pyRoundTo 2 risk_amount_usd
    total_fees := pyRoundTo 2 total_fees
    stop_distance_pct := pyRoundTo 2 (stop_distance_raw * 100)
    leverage := leverage
    liquidation_price := if 0 < liquidation_price
      then some (pyRoundTo 8 liquidation_price) else none
    warnings := warnings
    safe_to_trade :=
      decide (PositionWarning.insufficientBalance ∉ warnings) &&
        decide (PositionWarning.liquidationBeyondStop ∉ warnings) }

lemma mem_ite_singleton {α : Type} (a b : α) (c : Prop) [Decidable c] :
    a ∈ (if c then [b] else []) ↔ c ∧ a = b := by
  split_ifs with h <;> simp_all

lemma pyRoundTo_two_thirds_up {m : ℤ} {q : ℚ} (h : q = (m : ℚ) + 2/3) :
    pyRound q = m + 1 := by
  have hfl : ⌊q⌋ = m := by
    rw [h]
    rw [Int.floor_eq_iff]
    constructor <;> push_cast <;> linarith
  rw [← hfl]
  apply pyRound_eq_floor_add_one
  rw [hfl, h]
  norm_num

lemma pyRoundTo_third_down {m : ℤ} {q : ℚ} (h : q = (m : ℚ) + 1/3) :
    pyRound q = m := by
  have hfl : ⌊q⌋ = m := by
    rw [h]
    rw [Int.floor_eq_iff]
    constructor <;> push_cast <;> linarith
  rw [← hfl]
  apply pyRound_eq_floor
  rw [hfl, h]
  norm_num

lemma pr2_of_20000_3 : pyRoundTo 2 ((20000 : ℚ)/3) = 666667/100 := by
  unfold pyRoundTo
  rw [show ((20000 : ℚ)/3 * 10 ^ 2) = ((666666 : ℤ) : ℚ) + 2/3 by push_cast; ring,
    pyRoundTo_two_thirds_up rfl]
  norm_num

lemma pr8_of_200_3 : pyRoundTo 8 ((200 : ℚ)/3) = 6666666667/100000000 := by
  unfold pyRoundTo
  rw [show ((200 : ℚ)/3 * 10 ^ 8) = ((6666666666 : ℤ) : ℚ) + 2/3 by push_cast; ring,
    pyRoundTo_two_thirds_up rfl]
  norm_num

lemma pr2_of_40_3 : pyRoundTo 2 ((40 : ℚ)/3) = 1333/100 := by
  unfold pyRoundTo
  rw [show ((40 : ℚ)/3 * 10 ^ 2) = ((1333 : ℤ) : ℚ) + 1/3 by push_cast; ring,
    pyRoundTo_third_down rfl]
  norm_num

/-- C7 counterexample: in the claimed scenario the unleveraged margin is
6666.67, more than half the 10000 balance, so the code emits the
">50% of account" warning; the claim says the warnings list is empty. -/
theorem position_size_scenario_warning_counterexample :
    (calculate_position_size 10000 2 100 97 1 (1/1000)).warnings =
      [PositionWarning.highAccountUsage] ∧
    (calculate_position_size 10000 2 100 97 1 (1/1000)).warnings ≠ [] := by
  have h : (calculate_position_size 10000 2 100 97 1 (1/1000)).warnings =
      [PositionWarning.highAccountUsage] := by
    simp only [calculate_position_size]
    norm_num [abs_of_nonneg]
  exact ⟨h, by rw [h]; simp⟩

/-- C7 amended: the scenario numbers are as claimed (stop distance 3  %,
position value 6666.67, units 66.67, fees 13.33) but one warning is
emitted — the position uses more than 50  % of the account; in general the
four claimed warnings fire exactly at their conditions, a leverage of at
most 1 never yields the fifth (liquidation) warning, and a leveraged
position whose computed liquidation price is beyond the stop shows the
fifth warning can fire when none of the four claimed conditions holds. -/
theorem position_size_scenario_and_warning_conditions :
    ((calculate_position_size 10000 2 100 97 1 (1/1000)).stop_distance_pct = 3 ∧
     (calculate_position_size 10000 2 100 97 1 (1/1000)).position_value = 666667/100 ∧
     (calculate_position_size 10000 2 100 97 1 (1/1000)).units = 6666666667/100000000 ∧
     (calculate_position_size 10000 2 100 97 1 (1/1000)).total_fees = 1333/100 ∧
     (calculate_position_size 10000 2 100 97 1 (1/1000)).warnings =
       [PositionWarning.highAccountUsage]) ∧
    (∀ b r e s lev fee : ℚ, lev ≠ 0 →
      (PositionWarning.insufficientBalance ∈
          (calculate_position_size b r e s lev fee).warnings ↔
        b < b * (r/100) / |(e - s) / e|) ∧
      (PositionWarning.highAccountUsage ∈
          (calculate_position_size b r e s lev fee).warnings ↔
        b * (1/2) < b * (r/100) / |(e - s) / e|) ∧
      (PositionWarning.highLeverage ∈
          (calculate_position_size b r e s lev fee).warnings ↔ 3 < lev) ∧
      (PositionWarning.highRiskPct ∈
          (calculate_position_size b r e s lev fee).warnings ↔ 3 < r) ∧
      (lev ≤ 1 → PositionWarning.liquidationBeyondStop ∉
          (calculate_position_size b r e s lev fee).warnings)) ∧
    (calculate_position_size 10000 2 100 50 2 (1/1000)).warnings =
      [PositionWarning.liquidationBeyondStop] := by
  refine ⟨?_, ?_, ?_⟩
  · refine ⟨?_, ?_, ?_, ?_, ?_⟩
    · simp only [calculate_position_size]
      norm_num [abs_of_nonneg]
      have h3 := pyRoundTo_intCast 2 3
      norm_num at h3
      exact h3
    · simp only [calculate_position_size]
      norm_num [abs_of_nonneg]
      exact pr2_of_20000_3
    · simp only [calculate_position_size]
      norm_num [abs_of_nonneg]
      exact pr8_of_200_3
    · simp only [calculate_position_size]
      norm_num [abs_of_nonneg]
      exact pr2_of_40_3
    · simp only [calculate_position_size]
      norm_num [abs_of_nonneg]
  · intro b r e s lev fee hlev
    have hcancel : b * (r/100) / |(e - s) / e| * lev / lev =
        b * (r/100) / |(e - s) / e| := by
      field_simp
      rw [mul_div_mul_right _ _ hlev]
    refine ⟨?_, ?_, ?_, ?_, ?_⟩
    · simp only [calculate_position_size, List.mem_append, mem_ite_singleton]
      simp [hcancel]
    · simp only [calculate_position_size, List.mem_append, mem_ite_singleton]
      simp [hcancel]
    · simp only [calculate_position_size, List.mem_append, mem_ite_singleton]
      simp
    · simp only [calculate_position_size, List.mem_append, mem_ite_singleton]
      simp
    · intro hle
      simp only [calculate_position_size, List.mem_append, mem_ite_singleton]
      have hnot : ¬ (1 : ℚ) < lev := not_lt.mpr hle
      simp [hnot]
  · simp only [calculate_position_size]
    norm_num [abs_of_nonneg]

/-- C7 witness: the warning conditions instantiated at the scenario input. -/
theorem position_size_conditions_witness :
    ((1 : ℚ) ≠ 0) ∧
    (PositionWarning.highAccountUsage ∈
        (calculate_position_size 10000 2 100 97 1 (1/1000)).warnings ↔
      (10000 : ℚ) * (1/2) < 10000 * ((2 : ℚ)/100) / |((100 : ℚ) - 97) / 100|) ∧
    PositionWarning.liquidationBeyondStop ∉
      (calculate_position_size 10000 2 100 97 1 (1/1000)).warnings := by
  have h := position_size_scenario_and_warning_conditions.2.1
    10000 2 100 97 1 (1/1000) (by norm_num)
  exact ⟨by norm_num, h.2.1, h.2.2.2.2 (by norm_num)⟩

/-- Resolution of the support level in
`TechnicalIndicators.calculate_stop_loss_take_profit`
(scanner.py lines 788-790): the Bollinger lower band when available,
otherwise the recent swing low. -/
def resolve_support (bb_lower : Option ℚ) (swing_low : ℚ) : ℚ :=
  bb_lower.getD swing_low

/-- Resolution of the resistance level (scanner.py lines 792-794): the
Bollinger upper band when available, otherwise the recent swing high. -/
def resolve_resistance (bb_upper : Option ℚ) (swing_high : ℚ) : ℚ :=
  bb_upper.getD swing_high

/-- Stop-loss / take-profit advisory for a long position. -/
structure SLTPResult where
  entry_price : ℚ
  stop_loss : ℚ
  take_profit : ℚ
  risk_amount : ℚ
  reward_amount : ℚ
  risk_reward_ratio : ℚ

/-- Stop-loss candidates of the buy branch (scanner.py lines 804-809):
ATR stop, support stop, percentage stop. -/
def buyStopCandidates (price atr support : ℚ) : List ℚ :=
  [price - atr * (3/2), support * (995/1000), price * (97/100)]

/-- Validity filter of the buy branch (scanner.py lines 811-814): the stop
distance from the entry is strictly between 0.5  % and 8  %. -/
def validBuyStop (price s : ℚ) : Prop :=
  (5 : ℚ)/1000 < (price - s) / price ∧ (price - s) / price < (8 : ℚ)/100

instance (price s : ℚ) : Decidable (validBuyStop price s) := by
  unfold validBuyStop
  infer_instance

/-- The `stop_loss` local of the buy branch (scanner.py line 815):
`max(valid_stops) if valid_stops else atr_stop`. -/
def buy_stop_loss (price atr support : ℚ) : ℚ :=
  match (buyStopCandidates price atr support).filter
      (fun s => decide (validBuyStop price s)) with
  | [] => price - atr * (3/2)
  | h :: t => t.foldl max h

/-- The `take_profit` local of the buy branch (scanner.py lines 818-829):
the resistance target when it lies strictly between the entry and the
risk-reward target, otherwise the risk-reward target. -/
def buy_take_profit (price atr support resistance rr : ℚ) : ℚ :=
  let stop_loss := buy_stop_loss price atr support
  let reward_by_rr := price + (price - stop_loss) * rr
  let resistance_tp := resistance * (995/1000)
  if price < resistance_tp ∧ resistance_tp < reward_by_rr
    then resistance_tp else reward_by_rr

/-- The `actual_rr` local of the buy branch (scanner.py lines 827-830). -/
def buy_actual_rr (price atr support resistance rr : ℚ) : ℚ :=
  let stop_loss := buy_stop_loss price atr support
  let reward_by_rr := price + (price - stop_loss) * rr
  let resistance_tp := resistance * (995/1000)
  if price < resistance_tp ∧ resistance_tp < reward_by_rr
    then (resistance_tp - price) / (price - stop_loss) else rr

/-- Embedding of the buy branch of
`TechnicalIndicators.calculate_stop_loss_take_profit`
(scanner.py lines 797-830 and 864-875), with the ATR and the resolved
support/resistance levels given.  Fields are rounded as the source
rounds them. -/
def calculate_stop_loss_take_profit_buy (current_price atr support_level
    resistance_level risk_reward_ratio : ℚ) : SLTPResult :=
  let stop_loss := buy_stop_loss current_price atr support_level
  let take_profit := buy_take_profit current_price atr support_level
    resistance_level risk_reward_ratio
  { entry_price := pyRoundTo 8 current_price
    stop_loss := pyRoundTo 8 stop_loss
    take_profit := pyRoundTo 8 take_profit
    risk_amount := pyRoundTo 8 |current_price - stop_loss|
    reward_amount := pyRoundTo 8 |take_profit - current_price|
    risk_reward_ratio := pyRoundTo 2 (buy_actual_rr current_price atr
      support_level resistance_level risk_reward_ratio) }

lemma foldl_max_mem : ∀ (t : List ℚ) (h : ℚ), t.foldl max h ∈ h :: t
  | [], h => by simp
  | a :: t, h => by
    simp only [List.foldl]
    have hmem := foldl_max_mem t (max h a)
    rcases List.mem_cons.mp hmem with he | ht
    · rw [he]
      rcases max_choice h a with h1 | h1 <;> simp [h1]
    · simp [ht]

lemma le_foldl_max : ∀ (t : List ℚ) (h x : ℚ), x ∈ h :: t → x ≤ t.foldl max h
  | [], h, x, hx => by
    simp at hx
    simp [hx]
  | a :: t, h, x, hx => by
    simp only [List.foldl]
    rcases List.mem_cons.mp hx with he | ht
    · subst he
      exact le_trans (le_max_left x a)
        (le_foldl_max t (max x a) _ (List.mem_cons_self _ _))
    · rcases List.mem_cons.mp ht with he2 | ht2
      · subst he2
        exact le_trans (le_max_right h x)
          (le_foldl_max t (max h x) _ (List.mem_cons_self _ _))
      · exact le_foldl_max t (max h a) x (List.mem_cons_of_mem _ ht2)

lemma pyRoundTo_eq_self {n : ℕ} {q : ℚ} {m : ℤ} (h : q * 10 ^ n = (m : ℚ)) :
    pyRoundTo n q = q := by
  unfold pyRoundTo
  rw [h, pyRound_intCast, ← h]
  field_simp

/-- C8: for a buy the stop is the maximum of the candidate stops whose
distance from the entry is strictly between 0.5  % and 8  % (falling back
to the ATR stop when none qualifies), the take-profit is the closer to
the entry of the risk-reward target and the shaved resistance, and on the
claim's concrete scenario the advisory is stop 98.5, take-profit 100.495,
risk-reward ratio 0.33. -/
theorem sl_tp_buy_advisory (price atr support resistance rr : ℚ) :
    ((∃ s ∈ buyStopCandidates price atr support, validBuyStop price s) →
      buy_stop_loss price atr support ∈ buyStopCandidates price atr support ∧
      validBuyStop price (buy_stop_loss price atr support) ∧
      ∀ t ∈ buyStopCandidates price atr support, validBuyStop price t →
        t ≤ buy_stop_loss price atr support) ∧
    ((∀ s ∈ buyStopCandidates price atr support, ¬ validBuyStop price s) →
      buy_stop_loss price atr support = price - atr * (3/2)) ∧
    (price < resistance * (995/1000) →
      buy_take_profit price atr support resistance rr =
        min (price + (price - buy_stop_loss price atr support) * rr)
          (resistance * (995/1000))) ∧
    (resistance * (995/1000) ≤ price →
      buy_take_profit price atr support resistance rr =
        price + (price - buy_stop_loss price atr support) * rr) ∧
    (calculate_stop_loss_take_profit_buy 100 1 (resolve_support (some 92) 90)
      (resolve_resistance (some 101) 105) (5/2)).stop_loss = 197/2 ∧
    (calculate_stop_loss_take_profit_buy 100 1 (resolve_support (some 92) 90)
      (resolve_resistance (some 101) 105) (5/2)).take_profit = 20099/200 ∧
    (calculate_stop_loss_take_profit_buy 100 1 (resolve_support (some 92) 90)
      (resolve_resistance (some 101) 105) (5/2)).risk_reward_ratio = 33/100 := by
  have hstop : buy_stop_loss 100 1 92 = 197/2 := by
    simp only [buy_stop_loss, buyStopCandidates]
    norm_num [List.filter, validBuyStop, List.foldl, max_def]
  have htp : buy_take_profit 100 1 92 101 (5/2) = 20099/200 := by
    simp only [buy_take_profit, hstop]
    norm_num
  have hrr : buy_actual_rr 100 1 92 101 (5/2) = 33/100 := by
    simp only [buy_actual_rr, hstop]
    norm_num
  refine ⟨?_, ?_, ?_, ?_, ?_, ?_, ?_⟩
  · rintro ⟨s, hs, hv⟩
    have hsf : s ∈ (buyStopCandidates price atr support).filter
        (fun x => decide (validBuyStop price x)) :=
      List.mem_filter.mpr ⟨hs, by simpa using hv⟩
    rcases hne : (buyStopCandidates price atr support).filter
        (fun x => decide (validBuyStop price x)) with _ | ⟨h, t⟩
    · rw [hne] at hsf
      simp at hsf
    · have hdef : buy_stop_loss price atr support = t.foldl max h := by
        simp only [buy_stop_loss, hne]
      have hmem : t.foldl max h ∈ h :: t := foldl_max_mem t h
      have hmemf : t.foldl max h ∈ (buyStopCandidates price atr support).filter
          (fun x => decide (validBuyStop price x)) := by
        rw [hne]
        exact hmem
      have hfoldc := List.mem_filter.mp hmemf
      refine ⟨by rw [hdef]; exact hfoldc.1, by rw [hdef]; simpa using hfoldc.2, ?_⟩
      intro u hu huv
      have huf : u ∈ (buyStopCandidates price atr support).filter
          (fun x => decide (validBuyStop price x)) :=
        List.mem_filter.mpr ⟨hu, by simpa using huv⟩
      rw [hne] at huf
      rw [hdef]
      exact le_foldl_max t h u huf
  · intro hall
    have hnil : (buyStopCandidates price atr support).filter
        (fun x => decide (validBuyStop price x)) = [] := by
      rw [List.filter_eq_nil]
      intro a ha
      simpa using hall a ha
    simp only [buy_stop_loss, hnil]
  · intro hlt
    simp only [buy_take_profit]
    by_cases hc : resistance * (995/1000) <
        price + (price - buy_stop_loss price atr support) * rr
    · rw [if_pos ⟨hlt, hc⟩, min_eq_right (le_of_lt hc)]
    · rw [if_neg (by tauto), min_eq_left (by linarith)]
  · intro hge
    simp only [buy_take_profit]
    rw [if_neg (by intro hcon; exact absurd hcon.1 (not_lt.mpr hge))]
  · show pyRoundTo 8 (buy_stop_loss 100 1 (resolve_support (some 92) 90)) = 197/2
    rw [show resolve_support (some 92) 90 = 92 from rfl, hstop]
    exact pyRoundTo_eq_self
      (show (197/2 : ℚ) * 10 ^ 8 = ((9850000000 : ℤ) : ℚ) by norm_num)
  · show pyRoundTo 8 (buy_take_profit 100 1 (resolve_support (some 92) 90)
        (resolve_resistance (some 101) 105) (5/2)) = 20099/200
    rw [show resolve_support (some 92) 90 = 92 from rfl,
      show resolve_resistance (some 101) 105 = 101 from rfl, htp]
    exact pyRoundTo_eq_self
      (show (20099/200 : ℚ) * 10 ^ 8 = ((10049500000 : ℤ) : ℚ) by norm_num)
  · show pyRoundTo 2 (buy_actual_rr 100 1 (resolve_support (some 92) 90)
        (resolve_resistance (some 101) 105) (5/2)) = 33/100
    rw [show resolve_support (some 92) 90 = 92 from rfl,
      show resolve_resistance (some 101) 105 = 101 from rfl, hrr]
    exact pyRoundTo_eq_self
      (show (33/100 : ℚ) * 10 ^ 2 = ((33 : ℤ) : ℚ) by norm_num)

/-- C8 witness: the stop characterization and the take-profit rule applied
at the concrete scenario. -/
theorem sl_tp_buy_advisory_witness :
    buy_stop_loss 100 1 92 ∈ buyStopCandidates 100 1 92 ∧
    validBuyStop 100 (buy_stop_loss 100 1 92) ∧
    buy_take_profit 100 1 92 101 (5/2) =
      min (100 + (100 - buy_stop_loss 100 1 92) * (5/2)) (101 * (995/1000)) := by
  have h := sl_tp_buy_advisory 100 1 92 101 (5/2)
  have hex : ∃ s ∈ buyStopCandidates 100 1 92, validBuyStop 100 s := by
    refine ⟨100 - 1 * (3/2), ?_, ?_⟩
    · simp [buyStopCandidates]
    · norm_num [validBuyStop]
  have h1 := h.1 hex
  exact ⟨h1.1, h1.2.1, h.2.2.1 (by norm_num)⟩

/-- Embedding of the strength filter of `trigger_scan`
(scanner_api.py lines 315 and 494): `minStrength` is divided by 100 and
rows with `signal_strength >= minStrength / 100` are retained. -/
def trigger_scan_strength_filter (rows : List ScanRow) (minStrength : ℚ) :
    List ScanRow :=
  rows.filter (fun r => decide (minStrength / 100 ≤ r.signal_strength))

/-- C9: the API keeps exactly the rows whose `signal_strength` is at least
`minStrength / 100`; hence for any `minStrength ≤ 100` every row with
`signal_strength ≥ 1` passes the filter. -/
theorem trigger_scan_strength_filter_spec (rows : List ScanRow) (m : ℚ)
    (r : ScanRow) :
    (r ∈ trigger_scan_strength_filter rows m ↔
      r ∈ rows ∧ m / 100 ≤ r.signal_strength) ∧
    (m ≤ 100 → 1 ≤ r.signal_strength → r ∈ rows →
      r ∈ trigger_scan_strength_filter rows m) := by
  constructor
  · simp [trigger_scan_strength_filter, List.mem_filter]
  · intro hm hs hr
    simp only [trigger_scan_strength_filter, List.mem_filter]
    refine ⟨hr, by simpa using le_trans (by linarith) hs⟩

/-- C9 witness: a row of strength 50 passes the filter at the maximal
`minStrength = 100`. -/
theorem trigger_scan_strength_filter_spec_witness :
    (⟨0, 0, 0, 50, 0⟩ : ScanRow) ∈
      trigger_scan_strength_filter [⟨0, 0, 0, 50, 0⟩] 100 := by
  exact (trigger_scan_strength_filter_spec [⟨0, 0, 0, 50, 0⟩] 100 ⟨0, 0, 0, 50, 0⟩).2
    (by norm_num) (by norm_num) (by simp)

/-- Embedding of the `strength` field of `format_signal_for_api`
(scanner_api.py line 233): `min(100, max(0, int(signal_strength * 100)))`. -/
def format_signal_strength (signal_strength : ℚ) : ℤ :=
  min 100 (max 0 (pyInt (signal_strength * 100)))

/-- C10 counterexample: a reachable row has `signal_strength` exactly 100,
where the wire `strength` equals 100 = `signal_strength`, so "does not
equal the row's signal_strength" fails at that row. -/
theorem api_strength_equal_at_hundred_counterexample :
    calculate_signal_strength (1/10) (1/10) 50 1 (3/2) = 100 ∧
    format_signal_strength (calculate_signal_strength (1/10) (1/10) 50 1 (3/2)) = 100 ∧
    (format_signal_strength (calculate_signal_strength (1/10) (1/10) 50 1 (3/2)) : ℚ) =
      calculate_signal_strength (1/10) (1/10) 50 1 (3/2) := by
  have habs : |(1/10 : ℚ)| = 1/10 := by
    rw [abs_of_pos]
    norm_num
  have hs : calculate_signal_strength (1/10) (1/10) 50 1 (3/2) = 100 := by
    simp only [calculate_signal_strength, habs]
    norm_num [min_def, max_def, abs_of_pos]
  have hf : format_signal_strength 100 = 100 := by
    simp only [format_signal_strength, pyInt]
    norm_num
  refine ⟨hs, ?_, ?_⟩
  · rw [hs, hf]
  · rw [hs, hf]
    norm_num

/-- C10 amended: the wire `strength` is `min(100, max(0, int(s * 100)))`
for the row's 0-100 score `s`, so it saturates at 100 for every `s ≥ 1`
and differs from `s` whenever `1 ≤ s < 100`. -/
theorem api_strength_saturates (s : ℚ) :
    (1 ≤ s → format_signal_strength s = 100) ∧
    (1 ≤ s → s < 100 → (format_signal_strength s : ℚ) ≠ s) := by
  have key : 1 ≤ s → format_signal_strength s = 100 := by
    intro h1
    have hge : (100 : ℚ) ≤ s * 100 := by linarith
    have hnneg : ¬ s * 100 < 0 := by linarith
    have hfl : (100 : ℤ) ≤ ⌊s * 100⌋ := by
      rw [Int.le_floor]
      exact_mod_cast hge
    simp only [format_signal_strength, pyInt, if_neg hnneg]
    rw [max_eq_right (by omega), min_eq_left hfl]
  refine ⟨key, fun h1 h2 => ?_⟩
  rw [key h1]
  push_cast
  exact ne_of_gt (by linarith)

/-- C10 witness: saturation at a row score of 50. -/
theorem api_strength_saturates_witness :
    format_signal_strength 50 = 100 ∧ (format_signal_strength 50 : ℚ) ≠ 50 := by
  have h := api_strength_saturates 50
  exact ⟨h.1 (by norm_num), h.2 (by norm_num) (by norm_num)⟩

end Scanstream
